import Mathlib

/-!
Verification development for the Zabbix template validator
(src/validate-zabbix-template.py).  The validator walks a parsed XML tree,
accumulates classified findings (errors / warnings / info) in three
append-only buckets, and reports a per-file verdict together with a process
exit code.

The embedding below mirrors the Python class ZabbixTemplateValidator method
by method.  An XML element is a tag, an optional text, and a list of direct
children, matching the standard ElementTree surface used by the script
(find, findall, text).  Validation starts from the parsed root element,
that is, after the only short-circuiting step (XML parsing) has succeeded.
Python findings are interpolated message strings; here each distinct
message template is one constructor of the Finding type carrying the
interpolated data.  Statements in the source that can raise an uncaught
exception (attribute access or slicing on a None text, int() on None) are
modelled with Except: an exception aborts the validation of the file with
no verdict, exactly as in the source where the exception propagates out of
validate().
-/

set_option maxRecDepth 4000

/-- An XML element as seen by the script: a tag, the optional text content
(None for an empty element, as in ElementTree), and the list of direct
children. -/
inductive Elem where
  | mk (tag : String) (text : Option String) (children : List Elem)

def Elem.tag : Elem → String
  | .mk t _ _ => t

def Elem.text : Elem → Option String
  | .mk _ x _ => x

def Elem.children : Elem → List Elem
  | .mk _ _ c => c

/-- Model of ElementTree findall on a tag: all direct children with that
tag, in document order. -/
def Elem.findall (e : Elem) (t : String) : List Elem :=
  e.children.filter (fun c => c.tag == t)

/-- Model of ElementTree find on a tag: the first direct child with that
tag, if any. -/
def Elem.find (e : Elem) (t : String) : Option Elem :=
  (e.findall t).head?

/-- One classified finding.  Each constructor corresponds to one message
template appended to self.errors, self.warnings or self.info in the
source; its arguments are the data interpolated into that message. -/
inductive Finding where
  | rootOk
  | rootNotZabbixExport (found : String)
  | missingVersion
  | versionInfo (text : Option String)
  | versionOld (text : String)
  | versionUnparseable (text : String)
  | missingTemplates
  | noTemplates
  | foundTemplates (n : Nat)
  | missingTemplateName
  | missingUuid
  | invalidUuid (value : String)
  | noGroups
  | groupMissingName
  | itemMissingName
  | itemMissingKey
  | itemKeySpaces (key : String)
  | duplicateItemKey (key : String)
  | itemMissingValueType
  | unusualNumericValueType (v : Int)
  | unknownStringValueType (s : String)
  | discoveryMissingName
  | discoveryMissingKey
  | duplicateDiscoveryKey (key : Option String)
  | discoveryNoPrototypes
  | triggerMissingName
  | triggerMissingExpression
  | duplicateTriggerExpression (shown : String)
  | emptyTriggerExpression
  | unmatchedParens
  | unmatchedBraces
  | oldStyleExpression
  | triggerMissingPriority
  | invalidPriorityValue (v : Int)
  | unknownStringPriority (s : String)
  | macroMissingName
  | macroBadName (name : String)
  | duplicateMacro (name : String)
  | macroNoValue (name : Option String)
deriving DecidableEq

/-- The three finding buckets of one ZabbixTemplateValidator instance
(self.errors, self.warnings, self.info). -/
structure Findings where
  errors : List Finding
  warnings : List Finding
  info : List Finding
deriving DecidableEq

def Findings.empty : Findings := ⟨[], [], []⟩

def Findings.addError (st : Findings) (f : Finding) : Findings :=
  { st with errors := st.errors ++ [f] }

def Findings.addWarning (st : Findings) (f : Finding) : Findings :=
  { st with warnings := st.warnings ++ [f] }

def Findings.addInfo (st : Findings) (f : Finding) : Findings :=
  { st with info := st.info ++ [f] }

/-- Componentwise concatenation of finding buckets. -/
def Findings.append (st d : Findings) : Findings :=
  ⟨st.errors ++ d.errors, st.warnings ++ d.warnings, st.info ++ d.info⟩

/-- Exceptions the source can raise and does not catch: attribute access on
None (version.text.split when the text is absent) and TypeErrors (slicing
None, membership test on None, int(None), re.match on None). -/
inductive PyError where
  | attributeError
  | typeError
deriving DecidableEq

/-- Parse of an optional sign followed by one or more ASCII digits.  This
models both int() and float() on the plain dot-free decimal strings this
validator feeds them; surrounding whitespace, underscore digit separators,
exponents and the inf/nan spellings are outside the model. -/
def parseSignedDigits (s : String) : Option Int :=
  let digitsVal : List Char → Option Nat := fun l =>
    if l.isEmpty then none
    else if l.all Char.isDigit then
      some (l.foldl (fun a c => a * 10 + (c.toNat - 48)) 0)
    else none
  match s.data with
  | '-' :: r => (digitsVal r).map (fun n => -(n : Int))
  | '+' :: r => (digitsVal r).map (fun n => (n : Int))
  | l => (digitsVal l).map (fun n => (n : Int))

/-- Model of Python int() at the call sites of this script. -/
def pyInt (s : String) : Option Int := parseSignedDigits s

/-- Model of Python float() applied to the leading dot-free component of
the version text; the component contains no dot, so a successful parse
always yields an integral value. -/
def pyFloatMajor (s : String) : Option Int := parseSignedDigits s

/-- Character class [0-9a-f] under re.IGNORECASE. -/
def hexChar (c : Char) : Bool :=
  c.isDigit || ('a' ≤ c && c ≤ 'f') || ('A' ≤ c && c ≤ 'F')

/-- Character class [A-Z0-9_] of the macro naming convention. -/
def macroChar (c : Char) : Bool :=
  ('A' ≤ c && c ≤ 'Z') || c.isDigit || c = '_'

/-- Consume exactly n characters of the class p, returning the rest. -/
def segRun (p : Char → Bool) : Nat → List Char → Option (List Char)
  | 0, l => some l
  | n + 1, c :: r => if p c then segRun p n r else none
  | _ + 1, [] => none

/-- Consume one expected literal character, returning the rest. -/
def charTok (ch : Char) : List Char → Option (List Char)
  | c :: r => if c = ch then some r else none
  | [] => none

/-- Python re end-of-pattern behaviour of the dollar anchor under re.match:
the match succeeds at the end of the string or just before a single
trailing newline. -/
def dollarEnd (l : List Char) : Bool :=
  l = [] || l = ['\x0a']

/-- Sequencing of two pattern-body consumers. -/
def seqConsume (f g : List Char → Option (List Char)) (l : List Char) :
    Option (List Char) :=
  (f l).bind g

/-- Consumer for the dashed UUID pattern body: 8-4-4-4-12 hex characters
separated by dashes (either case, via re.IGNORECASE). -/
def uuidDashedCore : List Char → Option (List Char) :=
  seqConsume (segRun hexChar 8) <| seqConsume (charTok '-') <|
    seqConsume (segRun hexChar 4) <| seqConsume (charTok '-') <|
    seqConsume (segRun hexChar 4) <| seqConsume (charTok '-') <|
    seqConsume (segRun hexChar 4) <| seqConsume (charTok '-') <|
    segRun hexChar 12

/-- Consumer for the dashless UUID pattern body: 32 contiguous hex
characters. -/
def uuidNodashCore (l : List Char) : Option (List Char) :=
  segRun hexChar 32 l

/-- Model of _is_valid_uuid: re.match of either anchored UUID pattern.
The dollar anchor keeps its Python semantics (dollarEnd). -/
def isValidUuid (s : String) : Bool :=
  (match uuidDashedCore s.data with
   | some r => dollarEnd r
   | none => false)
  ||
  (match uuidNodashCore s.data with
   | some r => dollarEnd r
   | none => false)

/-- Consumer for the macro-name pattern body: an opening brace, a dollar,
one or more characters of [A-Z0-9_], a closing brace.  The repetition is
deterministic because the class excludes the closing brace, so the greedy
run of the regex is exactly the takeWhile run. -/
def macroCore (l : List Char) : Option (List Char) :=
  match l with
  | c1 :: c2 :: rest =>
      if c1 = '\x7b' ∧ c2 = '$' then
        match rest.dropWhile macroChar with
        | c3 :: r =>
            if c3 = '\x7d' ∧ ¬ (rest.takeWhile macroChar).isEmpty then some r else none
        | [] => none
      else none
  | _ => none

/-- Model of the macro naming-convention check: re.match of the anchored
pattern, with Python dollar-anchor semantics at the end. -/
def macroNameOk (s : String) : Bool :=
  match macroCore s.data with
  | some r => dollarEnd r
  | none => false

/-- The two UUID shapes exactly as the spec words them: canonical dashed
8-4-4-4-12 hexadecimal (either case), or 32 contiguous hexadecimal
characters, with nothing before or after.  Used to compare the code
against the claim. -/
def specUuidShape (s : String) : Bool :=
  (uuidDashedCore s.data == some []) || (uuidNodashCore s.data == some [])

/-- The macro naming convention exactly as the spec words it: an opening
brace, a dollar sign, one or more characters of [A-Z0-9_], a closing
brace, anchored at both ends.  Used to compare the code against the
claim. -/
def specMacroName (s : String) : Bool :=
  macroCore s.data == some []

/-- Matcher for the tail of the legacy-expression pattern after its third
one-or-more run has started: the run continues with non-brace characters
and must eventually be followed by the literal characters ( ) and a
closing brace. -/
def legacyTailC : List Char → Bool
  | [] => false
  | c :: rest =>
      if c = '\x7d' then false
      else
        (match rest with
         | '(' :: ')' :: '\x7d' :: _ => true
         | _ => false)
        || legacyTailC rest

/-- Matcher for the part after the colon: one or more non-brace characters,
a literal dot, then the legacyTailC part. -/
def legacyTailB : List Char → Bool
  | [] => false
  | c :: rest =>
      if c = '\x7d' then false
      else
        (match rest with
         | '.' :: r => legacyTailC r
         | _ => false)
        || legacyTailB rest

/-- Matcher for the part after the opening brace: one or more non-brace
characters, a literal colon, then the legacyTailB part. -/
def legacyTailA : List Char → Bool
  | [] => false
  | c :: rest =>
      if c = '\x7d' then false
      else
        (match rest with
         | ':' :: r => legacyTailB r
         | _ => false)
        || legacyTailA rest

/-- Model of re.search for the legacy trigger-expression pattern: an
opening brace, one or more non-brace characters, a colon, one or more
non-brace characters, a dot, one or more non-brace characters, the
literal characters ( ), a closing brace; the match may start anywhere.
The disjunction over all split points gives exactly the existence of a
backtracking regex match. -/
def legacySearch : List Char → Bool
  | [] => false
  | c :: rest => (c = '\x7b' && legacyTailA rest) || legacySearch rest

/-- Item value_type numeric constants accepted without a warning. -/
def validNumericItemTypes : List Int := [0, 1, 2, 3, 4, 15, 16]

/-- Item value_type string constants accepted without a warning. -/
def validStringItemTypes : List String :=
  ["FLOAT", "CHAR", "LOG", "UNSIGNED", "TEXT", "BINARY", "STR"]

/-- Trigger priority string constants accepted without a warning. -/
def validPriorityNames : List String :=
  ["NOT_CLASSIFIED", "INFO", "WARNING", "AVERAGE", "HIGH", "DISASTER"]

/-- Model of _validate_root_structure. -/
def validateRootStructure (root : Elem) (st : Findings) : Findings :=
  if root.tag ≠ "zabbix_export" then st.addError (.rootNotZabbixExport root.tag)
  else st.addInfo .rootOk

/-- Model of _validate_version.  When the version element is present but
its text is absent, the source calls split on None and raises an uncaught
AttributeError; only ValueError and IndexError are caught.  The leading
component before the first dot of the text is what the source passes to
float(). -/
def validateVersion (root : Elem) (st : Findings) : Except PyError Findings :=
  match root.find "version" with
  | none => .ok (st.addError .missingVersion)
  | some version =>
      let st := st.addInfo (.versionInfo version.text)
      match version.text with
      | none => .error .attributeError
      | some t =>
          let comp := String.mk (t.data.takeWhile (fun c => c != '.'))
          match pyFloatMajor comp with
          | some major => .ok (if major < 7 then st.addWarning (.versionOld t) else st)
          | none => .ok (st.addWarning (.versionUnparseable t))

/-- Model of _validate_groups: each group child must have a name. -/
def validateGroups (groups : Elem) (st : Findings) : Findings :=
  (groups.findall "group").foldl
    (fun st g => if (g.find "name").isNone then st.addError .groupMissingName else st) st

/-- Model of one iteration of the loop in _validate_items.  The seen
accumulator is the set of key texts already recorded; a key element with
absent text makes the source test a space membership on None and raise an
uncaught TypeError, and an absent value_type text makes int(None) raise an
uncaught TypeError. -/
def validateItem (seen : List String) (item : Elem) (st : Findings) :
    Except PyError (List String × Findings) := do
  let st := if (item.find "name").isNone then st.addError .itemMissingName else st
  let (seen, st) ←
    match item.find "key" with
    | none => Except.ok (seen, st.addError .itemMissingKey)
    | some key =>
        match key.text with
        | none => Except.error .typeError
        | some keyText =>
            let st :=
              if keyText.data.contains ' ' then st.addWarning (.itemKeySpaces keyText) else st
            let st :=
              if seen.contains keyText then st.addError (.duplicateItemKey keyText) else st
            Except.ok (keyText :: seen, st)
  let st ←
    match item.find "value_type" with
    | none => Except.ok (st.addError .itemMissingValueType)
    | some valueType =>
        match valueType.text with
        | none => Except.error .typeError
        | some vt =>
            match pyInt vt with
            | some v =>
                Except.ok (if validNumericItemTypes.contains v then st
                           else st.addWarning (.unusualNumericValueType v))
            | none =>
                Except.ok (if validStringItemTypes.contains vt then st
                           else st.addWarning (.unknownStringValueType vt))
  Except.ok (seen, st)

def validateItemsAux (seen : List String) (st : Findings) :
    List Elem → Except PyError Findings
  | [] => .ok st
  | item :: rest => do
      let (seen2, st2) ← validateItem seen item st
      validateItemsAux seen2 st2 rest

/-- Model of _validate_items: the seen-keys set starts empty for each call,
that is, for each template. -/
def validateItems (items : List Elem) (st : Findings) : Except PyError Findings :=
  validateItemsAux [] st items

/-- Model of one iteration of the loop in _validate_discovery_rules.  The
key text is used only for set membership, which Python tolerates for None,
so this step never raises. -/
def validateDiscoveryRule (seen : List (Option String)) (rule : Elem) (st : Findings) :
    List (Option String) × Findings :=
  let st := if (rule.find "name").isNone then st.addError .discoveryMissingName else st
  let (seen, st) :=
    match rule.find "key" with
    | none => (seen, st.addError .discoveryMissingKey)
    | some key =>
        let keyText := key.text
        let st :=
          if seen.contains keyText then st.addError (.duplicateDiscoveryKey keyText) else st
        (keyText :: seen, st)
  let st :=
    match rule.find "item_prototypes" with
    | none => st
    | some protos =>
        if (protos.findall "item_prototype").length = 0 then
          st.addWarning .discoveryNoPrototypes
        else st
  (seen, st)

def validateDiscoveryRulesAux (seen : List (Option String)) (st : Findings) :
    List Elem → Findings
  | [] => st
  | r :: rest =>
      let (seen2, st2) := validateDiscoveryRule seen r st
      validateDiscoveryRulesAux seen2 st2 rest

/-- Model of _validate_discovery_rules: the seen-keys set starts empty for
each call, that is, for each template. -/
def validateDiscoveryRules (rules : List Elem) (st : Findings) : Findings :=
  validateDiscoveryRulesAux [] st rules

/-- Model of _validate_trigger_expression.  A None expression text and an
empty string are both falsy in Python, so both take the early
empty-expression error return.  The three delimiter and legacy checks run
independently. -/
def validateTriggerExpression (expression : Option String) (st : Findings) : Findings :=
  match expression with
  | none => st.addError .emptyTriggerExpression
  | some e =>
      if e = "" then st.addError .emptyTriggerExpression
      else
        let st :=
          if e.data.count '(' ≠ e.data.count ')' then st.addError .unmatchedParens else st
        let st :=
          if e.data.count '\x7b' ≠ e.data.count '\x7d' then st.addError .unmatchedBraces
          else st
        if legacySearch e.data then st.addWarning .oldStyleExpression else st

/-- Model of one iteration of the loop in _validate_triggers.  When a
duplicate expression is found and its text is None, the source slices None
to build the warning message and raises an uncaught TypeError; likewise
int(None) for an absent priority text. -/
def validateTrigger (seen : List (Option String)) (trigger : Elem) (st : Findings) :
    Except PyError (List (Option String) × Findings) := do
  let st := if (trigger.find "name").isNone then st.addError .triggerMissingName else st
  let (seen, st) ←
    match trigger.find "expression" with
    | none => Except.ok (seen, st.addError .triggerMissingExpression)
    | some expression =>
        let exprText := expression.text
        let st ←
          if seen.contains exprText then
            match exprText with
            | none => Except.error .typeError
            | some s =>
                Except.ok (st.addWarning (.duplicateTriggerExpression (String.mk (s.data.take 50))))
          else Except.ok st
        Except.ok (exprText :: seen, validateTriggerExpression exprText st)
  let st ←
    match trigger.find "priority" with
    | none => Except.ok (st.addWarning .triggerMissingPriority)
    | some priority =>
        match priority.text with
        | none => Except.error .typeError
        | some pt =>
            match pyInt pt with
            | some v =>
                Except.ok (if 0 ≤ v ∧ v ≤ 5 then st
                           else st.addWarning (.invalidPriorityValue v))
            | none =>
                Except.ok (if validPriorityNames.contains pt then st
                           else st.addWarning (.unknownStringPriority pt))
  Except.ok (seen, st)

def validateTriggersAux (seen : List (Option String)) (st : Findings) :
    List Elem → Except PyError Findings
  | [] => .ok st
  | t :: rest => do
      let (seen2, st2) ← validateTrigger seen t st
      validateTriggersAux seen2 st2 rest

/-- Model of _validate_triggers: the seen-expressions set starts empty for
each call, that is, for each template. -/
def validateTriggers (triggers : List Elem) (st : Findings) : Except PyError Findings :=
  validateTriggersAux [] st triggers

/-- Model of one iteration of the loop in _validate_macros.  A macro name
element with absent text makes re.match receive None and raise an uncaught
TypeError.  In the missing-value warning, a payload of none stands for the
literal word unknown used when the name element itself is missing. -/
def validateMacroEntry (seen : List String) (mc : Elem) (st : Findings) :
    Except PyError (List String × Findings) := do
  let macroNameEl := mc.find "macro"
  let (seen, st) ←
    match macroNameEl with
    | none => Except.ok (seen, st.addError .macroMissingName)
    | some nameEl =>
        match nameEl.text with
        | none => Except.error .typeError
        | some nameText =>
            let st := if macroNameOk nameText then st else st.addWarning (.macroBadName nameText)
            let st :=
              if seen.contains nameText then st.addError (.duplicateMacro nameText) else st
            Except.ok (nameText :: seen, st)
  let st :=
    match mc.find "value" with
    | none =>
        st.addWarning (.macroNoValue (match macroNameEl with
          | some nameEl => nameEl.text
          | none => none))
    | some _ => st
  Except.ok (seen, st)

def validateMacrosAux (seen : List String) (st : Findings) :
    List Elem → Except PyError Findings
  | [] => .ok st
  | m :: rest => do
      let (seen2, st2) ← validateMacroEntry seen m st
      validateMacrosAux seen2 st2 rest

/-- Model of _validate_macros: the seen-macros set starts empty for each
call, that is, for each template. -/
def validateMacros (macros : List Elem) (st : Findings) : Except PyError Findings :=
  validateMacrosAux [] st macros

/-- Template-name section of _validate_template. -/
def templateNameStage (template : Elem) (st : Findings) : Findings :=
  if (template.find "name").isNone then st.addError .missingTemplateName else st

/-- UUID section of _validate_template.  A uuid element with absent text
makes the source slice None for the progress print and raise an uncaught
TypeError. -/
def templateUuidStage (template : Elem) (st : Findings) : Except PyError Findings :=
  match template.find "uuid" with
  | none => Except.ok (st.addWarning .missingUuid)
  | some uuid =>
      match uuid.text with
      | none => Except.error .typeError
      | some uuidText =>
          Except.ok (if isValidUuid uuidText then st else st.addError (.invalidUuid uuidText))

/-- Groups section of _validate_template. -/
def templateGroupsStage (template : Elem) (st : Findings) : Findings :=
  match template.find "groups" with
  | none => st.addWarning .noGroups
  | some groups =>
      if (groups.findall "group").length = 0 then st.addWarning .noGroups
      else validateGroups groups st

/-- Items section of _validate_template: the item list is validated only
when the items element is present. -/
def templateItemsStage (template : Elem) (st : Findings) : Except PyError Findings :=
  match template.find "items" with
  | none => Except.ok st
  | some items => validateItems (items.findall "item") st

/-- Discovery-rules section of _validate_template. -/
def templateDiscoveryStage (template : Elem) (st : Findings) : Findings :=
  match template.find "discovery_rules" with
  | none => st
  | some discovery => validateDiscoveryRules (discovery.findall "discovery_rule") st

/-- Triggers section of _validate_template. -/
def templateTriggersStage (template : Elem) (st : Findings) : Except PyError Findings :=
  match template.find "triggers" with
  | none => Except.ok st
  | some triggers => validateTriggers (triggers.findall "trigger") st

/-- Macros section of _validate_template. -/
def templateMacrosStage (template : Elem) (st : Findings) : Except PyError Findings :=
  match template.find "macros" with
  | none => Except.ok st
  | some macros => validateMacros (macros.findall "macro") st

/-- Model of _validate_template: its sections run in source order over the
shared buckets. -/
def validateTemplate (template : Elem) (st : Findings) : Except PyError Findings :=
  templateUuidStage template (templateNameStage template st) >>= fun st =>
  templateItemsStage template (templateGroupsStage template st) >>= fun st =>
  templateTriggersStage template (templateDiscoveryStage template st) >>= fun st =>
  templateMacrosStage template st

def validateTemplateList : List Elem → Findings → Except PyError Findings
  | [], st => .ok st
  | t :: rest, st => do
      let st ← validateTemplate t st
      validateTemplateList rest st

/-- Model of _validate_templates: a missing templates element records one
error and returns before any per-template check. -/
def validateTemplates (root : Elem) (st : Findings) : Except PyError Findings :=
  match root.find "templates" with
  | none => .ok (st.addError .missingTemplates)
  | some templates =>
      let templateList := templates.findall "template"
      if templateList.length = 0 then .ok (st.addWarning .noTemplates)
      else validateTemplateList templateList (st.addInfo (.foundTemplates templateList.length))

/-- Model of validate() from the parsed root onward: the root, version and
templates checks run in order over the shared buckets, and the returned
verdict is the emptiness test of the error bucket (len(self.errors) == 0
in the source). -/
def validate (root : Elem) : Except PyError (Bool × Findings) := do
  let st := Findings.empty
  let st := validateRootStructure root st
  let st ← validateVersion root st
  let st ← validateTemplates root st
  Except.ok (st.errors.length == 0, st)

/-- Model of the exit code computed in main(): 0 when every validated file
passed, 1 otherwise (sys.exit(0 if all_passed else 1)). -/
def mainExitCode (results : List Bool) : Nat :=
  if results.all (fun b => b) then 0 else 1

/-- A well-formed item element with the given key text, a name and the
value_type 0. -/
def mkItem (k : String) : Elem :=
  .mk "item" none
    [.mk "name" (some "item") [], .mk "key" (some k) [], .mk "value_type" (some "0") []]

/-- A trigger element whose expression element is present but carries no
text, as parsed from an empty expression element. -/
def emptyExprTrigger : Elem :=
  .mk "trigger" none
    [.mk "name" (some "t") [], .mk "expression" none [], .mk "priority" (some "1") []]

/-- A trigger element with a balanced non-legacy expression and no
priority element. -/
def okTrigger : Elem :=
  .mk "trigger" none [.mk "name" (some "t2") [], .mk "expression" (some "(x>1)") []]

/-- A template element with a name and the given uuid text, and no other
sub-collections. -/
def uuidTemplate (u : String) : Elem :=
  .mk "template" none [.mk "name" (some "T") [], .mk "uuid" (some u) []]

/-- A macro element with the given name text and a value. -/
def mkMacroNV (n : String) : Elem :=
  .mk "macro" none [.mk "macro" (some n) [], .mk "value" (some "v") []]

/-- A template carrying one item with key k, one discovery rule with key
dk, one trigger with expression e, and one macro named n. -/
def dupTestTemplate (tname k dk e n : String) : Elem :=
  .mk "template" none
    [ .mk "name" (some tname) [],
      .mk "items" none [mkItem k],
      .mk "discovery_rules" none
        [.mk "discovery_rule" none [.mk "name" (some "r") [], .mk "key" (some dk) []]],
      .mk "triggers" none
        [.mk "trigger" none
          [.mk "name" (some "t") [], .mk "expression" (some e) [],
           .mk "priority" (some "1") []]],
      .mk "macros" none [mkMacroNV n] ]

/-- A document with two distinct templates that carry the same item key,
discovery-rule key, trigger expression and macro name. -/
def dupTestDoc (k dk e n : String) : Elem :=
  .mk "zabbix_export" none
    [ .mk "version" (some "7.0") [],
      .mk "templates" none
        [dupTestTemplate "T1" k dk e n, dupTestTemplate "T2" k dk e n] ]

/-- Recognizer for the root-structure error finding. -/
def Finding.isRootErr : Finding → Bool
  | .rootNotZabbixExport _ => true
  | _ => false

/-- Recognizer for the three duplicate-identifier error findings. -/
def Finding.isDupErr : Finding → Bool
  | .duplicateItemKey _ => true
  | .duplicateDiscoveryKey _ => true
  | .duplicateMacro _ => true
  | _ => false

/-- Recognizer for the duplicate-trigger-expression warning finding. -/
def Finding.isDupExprWarn : Finding → Bool
  | .duplicateTriggerExpression _ => true
  | _ => false

/-- A pattern-body consumer keeps succeeding, with the extra input passed
through, when the input is extended on the right. -/
def ConsumeExt (f : List Char → Option (List Char)) : Prop :=
  ∀ p q r, f p = some q → f (p ++ r) = some (q ++ r)

/-- A successful pattern-body consumer splits its input into a consumed
prefix, on which it succeeds exactly, and the returned rest. -/
def ConsumeSplit (f : List Char → Option (List Char)) : Prop :=
  ∀ l q, f l = some q → ∃ t, l = t ++ q ∧ f t = some []

/-! Basic bucket lemmas. -/

@[simp]
theorem Findings.addError_errors (st : Findings) (f : Finding) :
    (st.addError f).errors = st.errors ++ [f] := rfl

@[simp]
theorem Findings.addError_warnings (st : Findings) (f : Finding) :
    (st.addError f).warnings = st.warnings := rfl

@[simp]
theorem Findings.addError_info (st : Findings) (f : Finding) :
    (st.addError f).info = st.info := rfl

@[simp]
theorem Findings.addWarning_errors (st : Findings) (f : Finding) :
    (st.addWarning f).errors = st.errors := rfl

@[simp]
theorem Findings.addWarning_warnings (st : Findings) (f : Finding) :
    (st.addWarning f).warnings = st.warnings ++ [f] := rfl

@[simp]
theorem Findings.addWarning_info (st : Findings) (f : Finding) :
    (st.addWarning f).info = st.info := rfl

@[simp]
theorem Findings.addInfo_errors (st : Findings) (f : Finding) :
    (st.addInfo f).errors = st.errors := rfl

@[simp]
theorem Findings.addInfo_warnings (st : Findings) (f : Finding) :
    (st.addInfo f).warnings = st.warnings := rfl

@[simp]
theorem Findings.addInfo_info (st : Findings) (f : Finding) :
    (st.addInfo f).info = st.info ++ [f] := rfl

@[simp]
theorem Findings.append_errors (st d : Findings) :
    (st.append d).errors = st.errors ++ d.errors := rfl

@[simp]
theorem Findings.append_warnings (st d : Findings) :
    (st.append d).warnings = st.warnings ++ d.warnings := rfl

@[simp]
theorem Findings.append_info (st d : Findings) :
    (st.append d).info = st.info ++ d.info := rfl

theorem Findings.ext_components {a b : Findings}
    (he : a.errors = b.errors) (hw : a.warnings = b.warnings) (hi : a.info = b.info) :
    a = b := by
  cases a
  cases b
  simp_all

@[simp]
theorem Findings.append_empty (st : Findings) : st.append Findings.empty = st := by
  cases st
  simp [Findings.append, Findings.empty]

@[simp]
theorem Findings.empty_append (st : Findings) : Findings.empty.append st = st := by
  cases st
  simp [Findings.append, Findings.empty]

@[simp]
theorem Findings.append_addError (st d : Findings) (f : Finding) :
    st.append (d.addError f) = (st.append d).addError f := by
  apply Findings.ext_components <;> simp

@[simp]
theorem Findings.append_addWarning (st d : Findings) (f : Finding) :
    st.append (d.addWarning f) = (st.append d).addWarning f := by
  apply Findings.ext_components <;> simp

@[simp]
theorem Findings.append_addInfo (st d : Findings) (f : Finding) :
    st.append (d.addInfo f) = (st.append d).addInfo f := by
  apply Findings.ext_components <;> simp

theorem Findings.append_assoc (a b c : Findings) :
    (a.append b).append c = a.append (b.append c) := by
  apply Findings.ext_components <;> simp

/-- C1: for every document, whenever validate returns a verdict, that
verdict is PASS (true) exactly when the error bucket is empty, whatever
the warning and info buckets hold. -/
theorem validate_verdict_iff_no_errors (root : Elem) (b : Bool) (f : Findings)
    (h : validate root = .ok (b, f)) : b = true ↔ f.errors = [] := by
  simp only [validate, Bind.bind, Except.bind] at h
  split at h
  · exact absurd h (by simp)
  · split at h
    · exact absurd h (by simp)
    · simp only [Except.ok.injEq, Prod.mk.injEq] at h
      obtain ⟨hb, hf⟩ := h
      subst hf
      subst hb
      simp [List.length_eq_zero]

/-- Witness for C1 at a concrete document: the two-error document gets the
FAIL verdict. -/
theorem validate_verdict_iff_no_errors_witness :
    (false = true ↔ ([Finding.missingVersion, Finding.missingTemplates] : List Finding) = []) :=
  validate_verdict_iff_no_errors (Elem.mk "zabbix_export" none [])
    false ⟨[.missingVersion, .missingTemplates], [], [.rootOk]⟩ rfl

/-- C2: the version check warns (and never errors) on a parseable version
below 7.0 and on unparseable text, and records nothing beyond the info
line for 7.0; but a version element whose text is absent makes the source
raise an uncaught AttributeError (None.split), aborting validation with no
verdict, where the spec promises a Warning. -/
theorem version_check_behaviour :
    validate (Elem.mk "zabbix_export" none [Elem.mk "version" none []])
      = .error .attributeError
    ∧ validateVersion (Elem.mk "zabbix_export" none [Elem.mk "version" (some "6.0") []])
        Findings.empty
      = .ok ⟨[], [.versionOld "6.0"], [.versionInfo (some "6.0")]⟩
    ∧ validateVersion (Elem.mk "zabbix_export" none [Elem.mk "version" (some "7.0") []])
        Findings.empty
      = .ok ⟨[], [], [.versionInfo (some "7.0")]⟩
    ∧ validateVersion (Elem.mk "zabbix_export" none [Elem.mk "version" (some "abc") []])
        Findings.empty
      = .ok ⟨[], [.versionUnparseable "abc"], [.versionInfo (some "abc")]⟩ :=
  ⟨rfl, rfl, rfl, rfl⟩

/-- C5: on the two spec witnesses, the expression checks yield exactly one
unmatched-parenthesis Error for the unclosed parenthesis, and exactly one
legacy-syntax Warning with no delimiter Error for the legacy pattern. -/
theorem trigger_expression_spec_witnesses :
    ∀ st : Findings,
      validateTriggerExpression (some "(A=1") st = st.addError .unmatchedParens ∧
      validateTriggerExpression (some "\x7bA:B.func()\x7d") st
        = st.addWarning .oldStyleExpression := by
  intro st
  exact ⟨rfl, rfl⟩

/-- C9 counterexample: a well-formed document lacking the templates
element can record two Errors, not exactly one, when the version element
is missing as well. -/
theorem missing_templates_not_always_one_error :
    validate (Elem.mk "zabbix_export" none [])
      = .ok (false, ⟨[.missingVersion, .missingTemplates], [], [.rootOk]⟩)
    ∧ ¬ ((Findings.mk [.missingVersion, .missingTemplates] [] [.rootOk]).errors.length = 1) :=
  ⟨rfl, by decide⟩

/-- C10 counterexample: with two empty expression elements in one trigger
collection, the source slices None for the duplicate-expression warning
message and raises an uncaught TypeError instead of recording the
Warning. -/
theorem duplicate_empty_expression_raises :
    validateTriggers [emptyExprTrigger, emptyExprTrigger] Findings.empty
      = .error .typeError := rfl

/-- C10 amended: an expression element with absent text records the same
empty-trigger-expression Error as an empty string (not the
missing-expression Error) and validation continues with the remaining
triggers; but a second absent-text expression in the same collection
raises an uncaught TypeError instead of the duplicate-expression
Warning. -/
theorem empty_expression_element_behaviour :
    (∀ st : Findings,
        validateTriggerExpression none st = st.addError .emptyTriggerExpression ∧
        validateTriggerExpression (some "") st = st.addError .emptyTriggerExpression) ∧
    validateTriggers [emptyExprTrigger, okTrigger] Findings.empty
      = .ok ⟨[.emptyTriggerExpression], [.triggerMissingPriority], []⟩ ∧
    validateTriggers [emptyExprTrigger, emptyExprTrigger] Findings.empty
      = .error .typeError := by
  refine ⟨fun st => ⟨rfl, rfl⟩, rfl, rfl⟩

/-! Duplicate item keys (C3). -/

theorem validateItem_mkItem (seen : List String) (k : String) (st : Findings) :
    validateItem seen (mkItem k) st =
      Except.ok (k :: seen,
        (if seen.contains k
          then (if k.data.contains ' ' then st.addWarning (.itemKeySpaces k) else st).addError
            (.duplicateItemKey k)
          else (if k.data.contains ' ' then st.addWarning (.itemKeySpaces k) else st))) := rfl

theorem count_dup_validateItemsAux (ks : List String) :
    ∀ (seen : List String) (st : Findings),
      ∃ st2, validateItemsAux seen st (ks.map mkItem) = .ok st2 ∧
        ∀ s : String, st2.errors.count (.duplicateItemKey s) =
          st.errors.count (.duplicateItemKey s) +
          (if seen.contains s then ks.count s else ks.count s - 1) := by
  induction ks with
  | nil =>
      intro seen st
      refine ⟨st, rfl, fun s => ?_⟩
      cases h : seen.contains s <;> simp [h]
  | cons k ks ih =>
      intro seen st
      obtain ⟨st2, h2, hcount⟩ :=
        ih (k :: seen)
          (if seen.contains k
            then (if k.data.contains ' ' then st.addWarning (.itemKeySpaces k) else st).addError
              (.duplicateItemKey k)
            else (if k.data.contains ' ' then st.addWarning (.itemKeySpaces k) else st))
      refine ⟨st2, ?_, ?_⟩
      · simpa [validateItemsAux, validateItem_mkItem, Bind.bind, Except.bind] using h2
      · intro s
        have hc := hcount s
        by_cases hks : s = k
        · subst hks
          by_cases hsk : s ∈ seen <;>
            simp [hsk, List.count_cons, List.count_append, apply_ite Findings.errors]
              at hc ⊢ <;>
              omega
        · by_cases hsk : s ∈ seen <;>
            by_cases hskk : k ∈ seen <;>
              simp [hsk, hskk, hks, List.count_cons, List.count_append,
                apply_ite Findings.errors] at hc ⊢ <;>
                omega

/-- C3: over one item collection, every occurrence of a key after its
first yields one duplicate-item-key Error, so k occurrences of the same
key produce exactly k-1 such Errors (and a key occurring once or not at
all produces none). -/
theorem duplicate_item_key_count (ks : List String) :
    ∃ st2, validateItems (ks.map mkItem) Findings.empty = .ok st2 ∧
      ∀ s : String, st2.errors.count (.duplicateItemKey s) = ks.count s - 1 := by
  obtain ⟨st2, h, hc⟩ := count_dup_validateItemsAux ks [] Findings.empty
  refine ⟨st2, h, fun s => ?_⟩
  have hcs := hc s
  simpa [Findings.empty] using hcs

/-! Missing templates element (C9). -/

/-- C9 amended: when the root tag is right, a version element with present
text exists, and the templates element is missing, validation records
exactly the missing-templates Error, performs no per-template check (the
templates step returns immediately after recording it), and the verdict is
FAIL with process exit code 1. -/
theorem missing_templates_single_error (txt : Option String) (ch : List Elem)
    (v : Elem) (vt : String)
    (hv : (Elem.mk "zabbix_export" txt ch).find "version" = some v)
    (hvt : v.text = some vt)
    (ht : (Elem.mk "zabbix_export" txt ch).find "templates" = none) :
    (∀ st, validateTemplates (Elem.mk "zabbix_export" txt ch) st
        = .ok (st.addError .missingTemplates)) ∧
    ∃ f : Findings, validate (Elem.mk "zabbix_export" txt ch) = .ok (false, f) ∧
      f.errors = [.missingTemplates] ∧ mainExitCode [false] = 1 := by
  refine ⟨fun st => by unfold validateTemplates; rw [ht], ?_⟩
  simp only [validate, validateRootStructure, validateVersion, validateTemplates,
    Bind.bind, Except.bind, Elem.tag, hv, hvt, ht]
  cases hp : pyFloatMajor (String.mk (vt.data.takeWhile (fun c => c != '.'))) with
  | some major =>
      by_cases hlt : major < 7 <;>
        simp [hlt, Findings.empty, mainExitCode]
  | none => simp [Findings.empty, mainExitCode]

/-- Witness for C9 at a concrete document carrying only a 7.0 version
element. -/
theorem missing_templates_single_error_witness :
    ((Elem.mk "zabbix_export" none [Elem.mk "version" (some "7.0") []]).find "version"
        = some (Elem.mk "version" (some "7.0") []) ∧
      (Elem.mk "version" (some "7.0") []).text = some "7.0" ∧
      (Elem.mk "zabbix_export" none [Elem.mk "version" (some "7.0") []]).find "templates"
        = none) ∧
    ((∀ st, validateTemplates (Elem.mk "zabbix_export" none [Elem.mk "version" (some "7.0") []]) st
        = .ok (st.addError .missingTemplates)) ∧
      ∃ f : Findings,
        validate (Elem.mk "zabbix_export" none [Elem.mk "version" (some "7.0") []])
          = .ok (false, f) ∧
        f.errors = [.missingTemplates] ∧ mainExitCode [false] = 1) :=
  ⟨⟨rfl, rfl, rfl⟩,
    missing_templates_single_error none [Elem.mk "version" (some "7.0") []]
      (Elem.mk "version" (some "7.0") []) "7.0" rfl rfl rfl⟩

/-! Freshness of the per-template seen sets (C4). -/

/-- C4: the seen sets for duplicate detection are freshly initialized per
template: a document whose two distinct templates carry the same item key,
the same discovery-rule key, the same trigger expression and the same
macro name records no duplicate-identifier Error and no
duplicate-expression Warning at all. -/
theorem per_template_seen_sets_fresh (k dk e n : String) :
    ∃ b f, validate (dupTestDoc k dk e n) = .ok (b, f) ∧
      f.errors.countP Finding.isDupErr = 0 ∧
      f.warnings.countP Finding.isDupExprWarn = 0 := by
  set G : Findings → Findings := fun st =>
    (let st1 := (st.addWarning .missingUuid).addWarning .noGroups
     let st2 := if k.data.contains ' ' then st1.addWarning (.itemKeySpaces k) else st1
     let st3 := validateTriggerExpression (some e) st2
     if macroNameOk n then st3 else st3.addWarning (.macroBadName n)) with hG
  have hGcount : ∀ st : Findings,
      (G st).errors.countP Finding.isDupErr = st.errors.countP Finding.isDupErr ∧
      (G st).warnings.countP Finding.isDupExprWarn
        = st.warnings.countP Finding.isDupExprWarn := by
    intro st
    rw [hG]
    constructor <;>
      simp [validateTriggerExpression, apply_ite Findings.errors, apply_ite Findings.warnings,
        apply_ite (List.countP Finding.isDupErr),
        apply_ite (List.countP Finding.isDupExprWarn),
        List.countP_append, List.countP_cons, Finding.isDupErr, Finding.isDupExprWarn]
  have hstep : ∀ (tname : String) (st : Findings),
      validateTemplate (dupTestTemplate tname k dk e n) st = .ok (G st) := by
    intro tname st
    rw [hG]
    rfl
  have hlist : validateTemplateList
      [dupTestTemplate "T1" k dk e n, dupTestTemplate "T2" k dk e n]
      (Findings.mk [] [] [.rootOk, .versionInfo (some "7.0"), .foundTemplates 2])
      = .ok (G (G (Findings.mk [] [] [.rootOk, .versionInfo (some "7.0"),
          .foundTemplates 2]))) := by
    simp only [validateTemplateList, hstep, Bind.bind, Except.bind]
  have hval : validate (dupTestDoc k dk e n)
      = .ok ((G (G (Findings.mk [] [] [.rootOk, .versionInfo (some "7.0"),
          .foundTemplates 2]))).errors.length == 0,
        G (G (Findings.mk [] [] [.rootOk, .versionInfo (some "7.0"),
          .foundTemplates 2]))) := by
    have h0 : validate (dupTestDoc k dk e n) =
        (validateTemplateList
          [dupTestTemplate "T1" k dk e n, dupTestTemplate "T2" k dk e n]
          (Findings.mk [] [] [.rootOk, .versionInfo (some "7.0"), .foundTemplates 2])).bind
          (fun st => Except.ok (st.errors.length == 0, st)) := rfl
    rw [h0, hlist]
    rfl
  refine ⟨_, _, hval, ?_, ?_⟩
  · rw [(hGcount _).1, (hGcount _).1]
    simp
  · rw [(hGcount _).2, (hGcount _).2]
    simp


/-! Consumer lemmas for the anchored regex matchers (C6, C7). -/

theorem segRun_ext (p : Char → Bool) (n : Nat) : ConsumeExt (segRun p n) := by
  induction n with
  | zero =>
      intro l q r h
      simp only [segRun, Option.some.injEq] at h
      subst h
      rfl
  | succ n ih =>
      intro l q r h
      cases l with
      | nil => simp [segRun] at h
      | cons c cs =>
          simp only [segRun] at h
          by_cases hp : p c = true
          · rw [if_pos hp] at h
            show segRun p (n + 1) (c :: (cs ++ r)) = some (q ++ r)
            simp only [segRun]
            rw [if_pos hp]
            exact ih cs q r h
          · rw [if_neg hp] at h
            exact absurd h (by simp)

theorem segRun_split (p : Char → Bool) (n : Nat) : ConsumeSplit (segRun p n) := by
  induction n with
  | zero =>
      intro l q h
      simp only [segRun, Option.some.injEq] at h
      subst h
      exact ⟨[], rfl, rfl⟩
  | succ n ih =>
      intro l q h
      cases l with
      | nil => simp [segRun] at h
      | cons c cs =>
          simp only [segRun] at h
          by_cases hp : p c = true
          · rw [if_pos hp] at h
            obtain ⟨t, hcs, ht⟩ := ih cs q h
            refine ⟨c :: t, by rw [hcs]; rfl, ?_⟩
            show segRun p (n + 1) (c :: t) = some []
            simp only [segRun]
            rw [if_pos hp]
            exact ht
          · rw [if_neg hp] at h
            exact absurd h (by simp)

theorem charTok_ext (ch : Char) : ConsumeExt (charTok ch) := by
  intro l q r h
  cases l with
  | nil => simp [charTok] at h
  | cons c cs =>
      simp only [charTok] at h
      by_cases hc : c = ch
      · rw [if_pos hc] at h
        injection h with h2
        rw [← h2]
        show charTok ch (c :: (cs ++ r)) = some (cs ++ r)
        simp [charTok, hc]
      · rw [if_neg hc] at h
        exact absurd h (by simp)

theorem charTok_split (ch : Char) : ConsumeSplit (charTok ch) := by
  intro l q h
  cases l with
  | nil => simp [charTok] at h
  | cons c cs =>
      simp only [charTok] at h
      by_cases hc : c = ch
      · rw [if_pos hc] at h
        injection h with h2
        subst h2
        refine ⟨[c], rfl, ?_⟩
        simp [charTok, hc]
      · rw [if_neg hc] at h
        exact absurd h (by simp)

theorem seqConsume_ext {f g : List Char → Option (List Char)}
    (hf : ConsumeExt f) (hg : ConsumeExt g) : ConsumeExt (seqConsume f g) := by
  intro l q r h
  unfold seqConsume at h ⊢
  cases hfl : f l with
  | none => rw [hfl] at h; simp [Option.bind] at h
  | some m =>
      rw [hfl] at h
      simp only [Option.bind] at h
      rw [hf l m r hfl]
      simpa [Option.bind] using hg m q r h

theorem seqConsume_split {f g : List Char → Option (List Char)}
    (hfe : ConsumeExt f) (hf : ConsumeSplit f) (hg : ConsumeSplit g) :
    ConsumeSplit (seqConsume f g) := by
  intro l q h
  unfold seqConsume at h
  cases hfl : f l with
  | none => rw [hfl] at h; simp [Option.bind] at h
  | some m =>
      rw [hfl] at h
      simp only [Option.bind] at h
      obtain ⟨t1, hl, ht1⟩ := hf l m hfl
      obtain ⟨t2, hm, ht2⟩ := hg m q h
      refine ⟨t1 ++ t2, ?_, ?_⟩
      · rw [hl, hm, List.append_assoc]
      · unfold seqConsume
        have hext := hfe t1 [] t2 ht1
        simp only [List.nil_append] at hext
        rw [hext]
        simpa [Option.bind] using ht2

theorem uuidDashedCore_ext : ConsumeExt uuidDashedCore :=
  seqConsume_ext (segRun_ext hexChar 8)
    (seqConsume_ext (charTok_ext '-')
      (seqConsume_ext (segRun_ext hexChar 4)
        (seqConsume_ext (charTok_ext '-')
          (seqConsume_ext (segRun_ext hexChar 4)
            (seqConsume_ext (charTok_ext '-')
              (seqConsume_ext (segRun_ext hexChar 4)
                (seqConsume_ext (charTok_ext '-') (segRun_ext hexChar 12))))))))

theorem uuidDashedCore_split : ConsumeSplit uuidDashedCore :=
  seqConsume_split (segRun_ext hexChar 8) (segRun_split hexChar 8)
    (seqConsume_split (charTok_ext '-') (charTok_split '-')
      (seqConsume_split (segRun_ext hexChar 4) (segRun_split hexChar 4)
        (seqConsume_split (charTok_ext '-') (charTok_split '-')
          (seqConsume_split (segRun_ext hexChar 4) (segRun_split hexChar 4)
            (seqConsume_split (charTok_ext '-') (charTok_split '-')
              (seqConsume_split (segRun_ext hexChar 4) (segRun_split hexChar 4)
                (seqConsume_split (charTok_ext '-') (charTok_split '-')
                  (segRun_split hexChar 12))))))))

theorem takeWhile_stop (p : Char → Bool) :
    ∀ (a : List Char) (b : Char) (c : List Char),
      (∀ x ∈ a, p x = true) → p b = false →
      (a ++ b :: c).takeWhile p = a ∧ (a ++ b :: c).dropWhile p = b :: c := by
  intro a
  induction a with
  | nil =>
      intro b c _ hb
      constructor
      · simp [List.takeWhile_cons, hb]
      · simp [List.dropWhile_cons, hb]
  | cons x xs ih =>
      intro b c ha hb
      have hx : p x = true := ha x (by simp)
      have hxs : ∀ y ∈ xs, p y = true := fun y hy => ha y (by simp [hy])
      obtain ⟨h1, h2⟩ := ih b c hxs hb
      constructor
      · simp [List.takeWhile_cons, hx, h1]
      · simp [List.dropWhile_cons, hx, h2]

theorem macroCore_ext : ConsumeExt macroCore := by
  intro l q r h
  rcases l with _ | ⟨c1, _ | ⟨c2, rest⟩⟩
  · simp [macroCore] at h
  · simp [macroCore] at h
  · simp only [macroCore] at h
    by_cases h12 : c1 = '\x7b' ∧ c2 = '$'
    · rw [if_pos h12] at h
      cases hdw : rest.dropWhile macroChar with
      | nil => simp [hdw] at h
      | cons c3 rr =>
          simp only [hdw] at h
          by_cases h3 : c3 = '\x7d' ∧ ¬ (rest.takeWhile macroChar).isEmpty
          · rw [if_pos h3] at h
            injection h with h2
            have hsplit : rest = rest.takeWhile macroChar ++ (c3 :: rr) := by
              conv_lhs => rw [← List.takeWhile_append_dropWhile (p := macroChar) (l := rest)]
              rw [hdw]
            have htw : ∀ x ∈ rest.takeWhile macroChar, macroChar x = true := fun x hx =>
              List.mem_takeWhile_imp hx
            have hc3 : macroChar c3 = false := by rw [h3.1]; decide
            show macroCore (c1 :: c2 :: (rest ++ r)) = some (q ++ r)
            simp only [macroCore]
            rw [if_pos h12]
            have hr2 : rest ++ r = rest.takeWhile macroChar ++ (c3 :: (rr ++ r)) := by
              conv_lhs => rw [hsplit]
              simp [List.append_assoc]
            obtain ⟨htw2, hdw2⟩ :=
              takeWhile_stop macroChar (rest.takeWhile macroChar) c3 (rr ++ r) htw hc3
            rw [hr2]
            simp only [hdw2, htw2]
            rw [if_pos h3, ← h2]
          · rw [if_neg h3] at h
            exact absurd h (by simp)
    · rw [if_neg h12] at h
      exact absurd h (by simp)

theorem macroCore_split : ConsumeSplit macroCore := by
  intro l q h
  rcases l with _ | ⟨c1, _ | ⟨c2, rest⟩⟩
  · simp [macroCore] at h
  · simp [macroCore] at h
  · simp only [macroCore] at h
    by_cases h12 : c1 = '\x7b' ∧ c2 = '$'
    · rw [if_pos h12] at h
      cases hdw : rest.dropWhile macroChar with
      | nil => simp [hdw] at h
      | cons c3 rr =>
          simp only [hdw] at h
          by_cases h3 : c3 = '\x7d' ∧ ¬ (rest.takeWhile macroChar).isEmpty
          · rw [if_pos h3] at h
            injection h with h2
            have hsplit : rest = rest.takeWhile macroChar ++ (c3 :: rr) := by
              conv_lhs => rw [← List.takeWhile_append_dropWhile (p := macroChar) (l := rest)]
              rw [hdw]
            have htw : ∀ x ∈ rest.takeWhile macroChar, macroChar x = true := fun x hx =>
              List.mem_takeWhile_imp hx
            have hc3 : macroChar c3 = false := by rw [h3.1]; decide
            refine ⟨c1 :: c2 :: (rest.takeWhile macroChar ++ [c3]), ?_, ?_⟩
            · rw [← h2]
              conv_lhs => rw [hsplit]
              simp [List.append_assoc]
            · simp only [macroCore]
              rw [if_pos h12]
              obtain ⟨htw2, hdw2⟩ :=
                takeWhile_stop macroChar (rest.takeWhile macroChar) c3 [] htw hc3
              have hconc : rest.takeWhile macroChar ++ [c3]
                  = rest.takeWhile macroChar ++ c3 :: [] := rfl
              rw [hconc]
              simp only [hdw2, htw2]
              rw [if_pos h3]
          · rw [if_neg h3] at h
            exact absurd h (by simp)
    · rw [if_neg h12] at h
      exact absurd h (by simp)

theorem getLast?_decomp {α : Type} : ∀ {l : List α} {a : α},
    l.getLast? = some a → l = l.dropLast ++ [a] := by
  intro l
  induction l with
  | nil => intro a h; simp at h
  | cons x xs ih =>
      intro a h
      cases xs with
      | nil =>
          simp only [List.getLast?_singleton, Option.some.injEq] at h
          subst h
          rfl
      | cons y ys =>
          rw [List.getLast?_cons_cons] at h
          have ih2 := ih h
          calc x :: y :: ys = x :: ((y :: ys).dropLast ++ [a]) := by rw [← ih2]
            _ = (x :: y :: ys).dropLast ++ [a] := rfl

/-- A consumer with the extension and split properties, run under the
Python dollar anchor, accepts exactly: its full-match language, plus every
full match followed by one trailing newline. -/
theorem anchoredMatch_iff (core : List Char → Option (List Char))
    (hExt : ConsumeExt core) (hSplit : ConsumeSplit core) (l : List Char) :
    (match core l with | some r => dollarEnd r | none => false) = true ↔
      (core l = some [] ∨ (l.getLast? = some '\x0a' ∧ core l.dropLast = some [])) := by
  constructor
  · intro h
    cases hc : core l with
    | none => rw [hc] at h; simp at h
    | some r =>
        rw [hc] at h
        have hr : r = [] ∨ r = ['\x0a'] := by simpa [dollarEnd] using h
        rcases hr with hr | hr
        · subst hr
          exact Or.inl rfl
        · subst hr
          obtain ⟨t, hl, ht⟩ := hSplit l _ hc
          right
          subst hl
          refine ⟨List.getLast?_concat .., ?_⟩
          rw [List.dropLast_concat ..]
          exact ht
  · intro h
    rcases h with h | ⟨hlast, hdl⟩
    · rw [h]
      simp [dollarEnd]
    · have hl : l = l.dropLast ++ ['\x0a'] := getLast?_decomp hlast
      have hcore := hExt _ _ ['\x0a'] hdl
      simp only [List.nil_append] at hcore
      rw [← hl] at hcore
      rw [hcore]
      simp [dollarEnd]

@[simp]
theorem stringDataMk (l : List Char) : (String.mk l).data = l := rfl

/-- C6 counterexample: a dashed UUID followed by one trailing newline is
not one of the two claimed shapes, yet the format check accepts it (the
Python dollar anchor matches before a trailing newline) and the template
check records no Error for it. -/
theorem uuid_trailing_newline_accepted :
    isValidUuid "550e8400-e29b-41d4-a716-446655440000\x0a" = true ∧
    specUuidShape "550e8400-e29b-41d4-a716-446655440000\x0a" = false ∧
    validateTemplate (uuidTemplate "550e8400-e29b-41d4-a716-446655440000\x0a")
      Findings.empty = .ok ⟨[], [.noGroups], []⟩ := by
  refine ⟨by decide, by decide, rfl⟩

/-- C6 amended: the UUID format check accepts exactly the two shapes of
the claim, each optionally followed by one trailing newline (Python
dollar-anchor semantics); the three concrete spec examples behave as
claimed, and a template with uuid text records the invalid-UUID Error
exactly when the check rejects the text. -/
theorem uuid_check_characterisation :
    (∀ s : String, isValidUuid s = true ↔
        (specUuidShape s = true ∨
          (s.data.getLast? = some '\x0a' ∧
            specUuidShape (String.mk s.data.dropLast) = true))) ∧
    isValidUuid "550e8400-e29b-41d4-a716-446655440000" = true ∧
    isValidUuid "550e8400e29b41d4a716446655440000" = true ∧
    isValidUuid "550e8400-e29b-41d4-a716" = false ∧
    (∀ u : String, validateTemplate (uuidTemplate u) Findings.empty
        = .ok ((if isValidUuid u then Findings.empty
                else Findings.empty.addError (.invalidUuid u)).addWarning .noGroups)) := by
  refine ⟨?_, by decide, by decide, by decide, fun u => rfl⟩
  intro s
  have hd := anchoredMatch_iff uuidDashedCore uuidDashedCore_ext uuidDashedCore_split s.data
  have hn := anchoredMatch_iff uuidNodashCore (segRun_ext hexChar 32)
    (segRun_split hexChar 32) s.data
  simp only [isValidUuid, specUuidShape, Bool.or_eq_true, beq_iff_eq, stringDataMk]
  rw [hd, hn]
  tauto

/-- C7 counterexample: a macro name of the convention followed by one
trailing newline does not match the anchored pattern of the claim, yet the
code accepts it without a Warning (Python dollar-anchor semantics). -/
theorem macro_trailing_newline_accepted :
    macroNameOk "\x7b$A\x7d\x0a" = true ∧
    specMacroName "\x7b$A\x7d\x0a" = false ∧
    validateMacros [mkMacroNV "\x7b$A\x7d\x0a"] Findings.empty
      = .ok ⟨[], [], []⟩ := by
  refine ⟨by decide, by decide, rfl⟩

/-- C7 amended: the macro naming check accepts exactly the anchored
pattern of the claim, optionally followed by one trailing newline (Python
dollar-anchor semantics); the four concrete spec examples behave as
claimed, and a mismatching name records a Warning, never an Error. -/
theorem macro_convention_characterisation :
    (∀ s : String, macroNameOk s = true ↔
        (specMacroName s = true ∨
          (s.data.getLast? = some '\x0a' ∧
            specMacroName (String.mk s.data.dropLast) = true))) ∧
    macroNameOk "\x7b$MY_MACRO\x7d" = true ∧
    macroNameOk "\x7b$my_macro\x7d" = false ∧
    macroNameOk "\x7bMY_MACRO\x7d" = false ∧
    macroNameOk "\x7b$MY-MACRO\x7d" = false ∧
    (∀ n : String, validateMacros [mkMacroNV n] Findings.empty
        = .ok (if macroNameOk n then Findings.empty
               else Findings.empty.addWarning (.macroBadName n))) := by
  refine ⟨?_, by decide, by decide, by decide, by decide, fun n => rfl⟩
  intro s
  have h := anchoredMatch_iff macroCore macroCore_ext macroCore_split s.data
  simp only [macroNameOk, specMacroName, beq_iff_eq, stringDataMk]
  rw [h]

/-! Root-error counting lemmas (C8): no check after the root check ever
records a root-structure error. -/

theorem countP_root_vte (e : Option String) (st : Findings) :
    (validateTriggerExpression e st).errors.countP Finding.isRootErr
      = st.errors.countP Finding.isRootErr := by
  cases e with
  | none => simp [validateTriggerExpression, Finding.isRootErr]
  | some s =>
      simp only [validateTriggerExpression]
      split_ifs <;>
        simp [List.countP_append, List.countP_cons, Finding.isRootErr]

theorem countP_root_validateGroups (groups : Elem) (st : Findings) :
    (validateGroups groups st).errors.countP Finding.isRootErr
      = st.errors.countP Finding.isRootErr := by
  unfold validateGroups
  generalize groups.findall "group" = gl
  induction gl generalizing st with
  | nil => simp
  | cons g gs ih =>
      simp only [List.foldl_cons]
      rw [ih]
      by_cases hc : (g.find "name").isNone = true <;>
        simp [hc, List.countP_append, List.countP_cons, Finding.isRootErr]

theorem countP_root_validateItem (seen : List String) (item : Elem) (st : Findings)
    (p : List String × Findings) (h : validateItem seen item st = .ok p) :
    p.2.errors.countP Finding.isRootErr = st.errors.countP Finding.isRootErr := by
  simp only [validateItem, Bind.bind, Except.bind] at h
  repeat' split at h
  all_goals cases h
  all_goals
    simp [List.countP_append, List.countP_cons, Finding.isRootErr,
      apply_ite Findings.errors, apply_ite (List.countP Finding.isRootErr)]

theorem countP_root_validateItemsAux :
    ∀ (items : List Elem) (seen : List String) (st r : Findings),
      validateItemsAux seen st items = .ok r →
      r.errors.countP Finding.isRootErr = st.errors.countP Finding.isRootErr := by
  intro items
  induction items with
  | nil =>
      intro seen st r h
      simp only [validateItemsAux] at h
      cases h
      rfl
  | cons it rest ih =>
      intro seen st r h
      simp only [validateItemsAux, Bind.bind, Except.bind] at h
      cases hit : validateItem seen it st with
      | error e => simp only [hit] at h; cases h
      | ok pr =>
          obtain ⟨s2, st2⟩ := pr
          simp only [hit] at h
          exact (ih s2 st2 r h).trans (countP_root_validateItem seen it st (s2, st2) hit)

theorem countP_root_validateDiscoveryRule (seen : List (Option String)) (rule : Elem)
    (st : Findings) :
    (validateDiscoveryRule seen rule st).2.errors.countP Finding.isRootErr
      = st.errors.countP Finding.isRootErr := by
  simp only [validateDiscoveryRule]
  repeat' split
  all_goals
    simp [List.countP_append, List.countP_cons, Finding.isRootErr,
      apply_ite Findings.errors, apply_ite (List.countP Finding.isRootErr)]

theorem countP_root_validateDiscoveryRulesAux :
    ∀ (rules : List Elem) (seen : List (Option String)) (st : Findings),
      (validateDiscoveryRulesAux seen st rules).errors.countP Finding.isRootErr
        = st.errors.countP Finding.isRootErr := by
  intro rules
  induction rules with
  | nil => intro seen st; rfl
  | cons r rest ih =>
      intro seen st
      simp only [validateDiscoveryRulesAux]
      rw [ih]
      exact countP_root_validateDiscoveryRule seen r st

theorem countP_root_validateTrigger (seen : List (Option String)) (trigger : Elem)
    (st : Findings) (p : List (Option String) × Findings)
    (h : validateTrigger seen trigger st = .ok p) :
    p.2.errors.countP Finding.isRootErr = st.errors.countP Finding.isRootErr := by
  simp only [validateTrigger, Bind.bind, Except.bind] at h
  repeat' split at h
  all_goals cases h
  all_goals
    simp [countP_root_vte, List.countP_append, List.countP_cons, Finding.isRootErr,
      apply_ite Findings.errors, apply_ite (List.countP Finding.isRootErr)]

theorem countP_root_validateTriggersAux :
    ∀ (triggers : List Elem) (seen : List (Option String)) (st r : Findings),
      validateTriggersAux seen st triggers = .ok r →
      r.errors.countP Finding.isRootErr = st.errors.countP Finding.isRootErr := by
  intro triggers
  induction triggers with
  | nil =>
      intro seen st r h
      simp only [validateTriggersAux] at h
      cases h
      rfl
  | cons t rest ih =>
      intro seen st r h
      simp only [validateTriggersAux, Bind.bind, Except.bind] at h
      cases ht : validateTrigger seen t st with
      | error e => simp only [ht] at h; cases h
      | ok pr =>
          obtain ⟨s2, st2⟩ := pr
          simp only [ht] at h
          exact (ih s2 st2 r h).trans (countP_root_validateTrigger seen t st (s2, st2) ht)

theorem countP_root_validateMacroEntry (seen : List String) (mc : Elem) (st : Findings)
    (p : List String × Findings) (h : validateMacroEntry seen mc st = .ok p) :
    p.2.errors.countP Finding.isRootErr = st.errors.countP Finding.isRootErr := by
  simp only [validateMacroEntry, Bind.bind, Except.bind] at h
  repeat' split at h
  all_goals cases h
  all_goals
    simp [List.countP_append, List.countP_cons, Finding.isRootErr,
      apply_ite Findings.errors, apply_ite (List.countP Finding.isRootErr)]

theorem countP_root_validateMacrosAux :
    ∀ (macros : List Elem) (seen : List String) (st r : Findings),
      validateMacrosAux seen st macros = .ok r →
      r.errors.countP Finding.isRootErr = st.errors.countP Finding.isRootErr := by
  intro macros
  induction macros with
  | nil =>
      intro seen st r h
      simp only [validateMacrosAux] at h
      cases h
      rfl
  | cons m rest ih =>
      intro seen st r h
      simp only [validateMacrosAux, Bind.bind, Except.bind] at h
      cases hm : validateMacroEntry seen m st with
      | error e => simp only [hm] at h; cases h
      | ok pr =>
          obtain ⟨s2, st2⟩ := pr
          simp only [hm] at h
          exact (ih s2 st2 r h).trans (countP_root_validateMacroEntry seen m st (s2, st2) hm)

theorem countP_root_nameStage (tpl : Elem) (st : Findings) :
    (templateNameStage tpl st).errors.countP Finding.isRootErr
      = st.errors.countP Finding.isRootErr := by
  unfold templateNameStage
  split <;> simp [List.countP_append, List.countP_cons, Finding.isRootErr]

theorem countP_root_uuidStage (tpl : Elem) (st r : Findings)
    (h : templateUuidStage tpl st = .ok r) :
    r.errors.countP Finding.isRootErr = st.errors.countP Finding.isRootErr := by
  simp only [templateUuidStage] at h
  repeat' split at h
  all_goals cases h
  all_goals
    simp [List.countP_append, List.countP_cons, Finding.isRootErr,
      apply_ite Findings.errors, apply_ite (List.countP Finding.isRootErr)]

theorem countP_root_groupsStage (tpl : Elem) (st : Findings) :
    (templateGroupsStage tpl st).errors.countP Finding.isRootErr
      = st.errors.countP Finding.isRootErr := by
  simp only [templateGroupsStage]
  repeat' split
  all_goals simp [countP_root_validateGroups]

theorem countP_root_itemsStage (tpl : Elem) (st r : Findings)
    (h : templateItemsStage tpl st = .ok r) :
    r.errors.countP Finding.isRootErr = st.errors.countP Finding.isRootErr := by
  simp only [templateItemsStage] at h
  split at h
  · cases h; rfl
  · exact countP_root_validateItemsAux _ _ _ _ h

theorem countP_root_discoveryStage (tpl : Elem) (st : Findings) :
    (templateDiscoveryStage tpl st).errors.countP Finding.isRootErr
      = st.errors.countP Finding.isRootErr := by
  simp only [templateDiscoveryStage]
  split
  · rfl
  · exact countP_root_validateDiscoveryRulesAux _ _ _

theorem countP_root_triggersStage (tpl : Elem) (st r : Findings)
    (h : templateTriggersStage tpl st = .ok r) :
    r.errors.countP Finding.isRootErr = st.errors.countP Finding.isRootErr := by
  simp only [templateTriggersStage] at h
  split at h
  · cases h; rfl
  · exact countP_root_validateTriggersAux _ _ _ _ h

theorem countP_root_macrosStage (tpl : Elem) (st r : Findings)
    (h : templateMacrosStage tpl st = .ok r) :
    r.errors.countP Finding.isRootErr = st.errors.countP Finding.isRootErr := by
  simp only [templateMacrosStage] at h
  split at h
  · cases h; rfl
  · exact countP_root_validateMacrosAux _ _ _ _ h

theorem countP_root_validateTemplate (tpl : Elem) (st r : Findings)
    (h : validateTemplate tpl st = .ok r) :
    r.errors.countP Finding.isRootErr = st.errors.countP Finding.isRootErr := by
  simp only [validateTemplate, Bind.bind, Except.bind] at h
  cases h1 : templateUuidStage tpl (templateNameStage tpl st) with
  | error e => simp only [h1] at h; cases h
  | ok m1 =>
      simp only [h1] at h
      cases h2 : templateItemsStage tpl (templateGroupsStage tpl m1) with
      | error e => simp only [h2] at h; cases h
      | ok m2 =>
          simp only [h2] at h
          cases h3 : templateTriggersStage tpl (templateDiscoveryStage tpl m2) with
          | error e => simp only [h3] at h; cases h
          | ok m3 =>
              simp only [h3] at h
              calc r.errors.countP Finding.isRootErr
                  = m3.errors.countP Finding.isRootErr :=
                    countP_root_macrosStage tpl m3 r h
                _ = m2.errors.countP Finding.isRootErr := by
                    rw [countP_root_triggersStage tpl _ m3 h3, countP_root_discoveryStage]
                _ = m1.errors.countP Finding.isRootErr := by
                    rw [countP_root_itemsStage tpl _ m2 h2, countP_root_groupsStage]
                _ = st.errors.countP Finding.isRootErr := by
                    rw [countP_root_uuidStage tpl _ m1 h1, countP_root_nameStage]

theorem countP_root_validateTemplateList :
    ∀ (tl : List Elem) (st r : Findings),
      validateTemplateList tl st = .ok r →
      r.errors.countP Finding.isRootErr = st.errors.countP Finding.isRootErr := by
  intro tl
  induction tl with
  | nil =>
      intro st r h
      simp only [validateTemplateList] at h
      cases h
      rfl
  | cons t rest ih =>
      intro st r h
      simp only [validateTemplateList, Bind.bind, Except.bind] at h
      cases h1 : validateTemplate t st with
      | error e => simp only [h1] at h; cases h
      | ok m =>
          simp only [h1] at h
          exact (ih m r h).trans (countP_root_validateTemplate t st m h1)

theorem countP_root_validateTemplates (root : Elem) (st r : Findings)
    (h : validateTemplates root st = .ok r) :
    r.errors.countP Finding.isRootErr = st.errors.countP Finding.isRootErr := by
  simp only [validateTemplates] at h
  split at h
  · cases h
    simp [List.countP_append, List.countP_cons, Finding.isRootErr]
  · split at h
    · cases h; rfl
    · have := countP_root_validateTemplateList _ _ _ h
      simpa using this

theorem countP_root_validateVersion (root : Elem) (st r : Findings)
    (h : validateVersion root st = .ok r) :
    r.errors.countP Finding.isRootErr = st.errors.countP Finding.isRootErr := by
  simp only [validateVersion] at h
  repeat' split at h
  all_goals cases h
  all_goals
    simp [List.countP_append, List.countP_cons, Finding.isRootErr,
      apply_ite Findings.errors, apply_ite (List.countP Finding.isRootErr)]


/-! Commutation lemmas (C8): every check appends the same findings
whatever was accumulated before it. -/

theorem foldl_append_comm (f : Findings → Elem → Findings)
    (hf : ∀ (st d : Findings) (g : Elem), f (st.append d) g = st.append (f d g)) :
    ∀ (l : List Elem) (st d : Findings),
      l.foldl f (st.append d) = st.append (l.foldl f d) := by
  intro l
  induction l with
  | nil => intro st d; rfl
  | cons g gs ih =>
      intro st d
      simp only [List.foldl_cons]
      rw [hf st d g, ih]

theorem append_validateGroups (groups : Elem) (st d : Findings) :
    validateGroups groups (st.append d) = st.append (validateGroups groups d) := by
  unfold validateGroups
  apply foldl_append_comm
  intro st2 d2 g
  by_cases hc : (g.find "name").isNone = true <;> simp [hc]

theorem vv_comm (root : Elem) (st d : Findings) :
    validateVersion root (st.append d) = (validateVersion root d).map st.append := by
  unfold validateVersion
  cases hfind : root.find "version" with
  | none => simp [hfind, Except.map]
  | some v =>
      cases htext : v.text with
      | none => simp [hfind, htext, Except.map]
      | some t =>
          cases hp : pyFloatMajor (String.mk (t.data.takeWhile (fun c => c != '.'))) with
          | some major =>
              by_cases h7 : major < 7 <;> simp [hfind, htext, hp, h7, Except.map]
          | none => simp [hfind, htext, hp, Except.map]

theorem vte_comm (e : Option String) (st d : Findings) :
    st.append (validateTriggerExpression e d) = validateTriggerExpression e (st.append d) := by
  cases e with
  | none => simp [validateTriggerExpression]
  | some s =>
      simp only [validateTriggerExpression]
      split_ifs <;> simp

theorem validateItem_comm (seen : List String) (item : Elem) (st d : Findings) :
    validateItem seen item (st.append d)
      = (validateItem seen item d).map (fun p => (p.1, st.append p.2)) := by
  simp only [validateItem, Bind.bind, Except.bind]
  by_cases hn : (item.find "name").isNone = true <;>
  · cases hk : item.find "key" with
    | none =>
        cases hvt : item.find "value_type" with
        | none => simp [hn, hk, hvt, Except.map]
        | some vt =>
            cases hvtt : vt.text with
            | none => simp [hn, hk, hvt, hvtt, Except.map]
            | some vts =>
                cases hpi : pyInt vts with
                | some v =>
                    by_cases hv : v ∈ validNumericItemTypes <;>
                      simp [hn, hk, hvt, hvtt, hpi, hv, Except.map]
                | none =>
                    by_cases hs : vts ∈ validStringItemTypes <;>
                      simp [hn, hk, hvt, hvtt, hpi, hs, Except.map]
    | some key =>
        cases hkt : key.text with
        | none => simp [hn, hk, hkt, Except.map]
        | some kt =>
            cases hvt : item.find "value_type" with
            | none =>
                by_cases hsp : ' ' ∈ kt.data <;>
                  by_cases hdup : kt ∈ seen <;>
                    simp [hn, hk, hkt, hvt, hsp, hdup, Except.map]
            | some vt =>
                cases hvtt : vt.text with
                | none => simp [hn, hk, hkt, hvt, hvtt, Except.map]
                | some vts =>
                    cases hpi : pyInt vts with
                    | some v =>
                        by_cases hv : v ∈ validNumericItemTypes <;>
                          by_cases hsp : ' ' ∈ kt.data <;>
                            by_cases hdup : kt ∈ seen <;>
                              simp [hn, hk, hkt, hvt, hvtt, hpi, hv, hsp, hdup, Except.map]
                    | none =>
                        by_cases hs : vts ∈ validStringItemTypes <;>
                          by_cases hsp : ' ' ∈ kt.data <;>
                            by_cases hdup : kt ∈ seen <;>
                              simp [hn, hk, hkt, hvt, hvtt, hpi, hs, hsp, hdup, Except.map]

theorem validateItemsAux_comm :
    ∀ (items : List Elem) (seen : List String) (st d : Findings),
      validateItemsAux seen (st.append d) items
        = (validateItemsAux seen d items).map st.append := by
  intro items
  induction items with
  | nil => intro seen st d; simp [validateItemsAux, Except.map]
  | cons it rest ih =>
      intro seen st d
      simp only [validateItemsAux, Bind.bind, Except.bind]
      rw [validateItem_comm seen it st d]
      cases hit : validateItem seen it d with
      | error e => simp [hit, Except.map]
      | ok pr =>
          obtain ⟨s2, st2⟩ := pr
          simp only [hit, Except.map]
          exact ih s2 st st2

theorem validateTrigger_comm (seen : List (Option String)) (trigger : Elem)
    (st d : Findings) :
    validateTrigger seen trigger (st.append d)
      = (validateTrigger seen trigger d).map (fun p => (p.1, st.append p.2)) := by
  simp only [validateTrigger, Bind.bind, Except.bind]
  repeat' split
  all_goals (first | rfl | simp_all [Except.map, vte_comm])

theorem validateTriggersAux_comm :
    ∀ (triggers : List Elem) (seen : List (Option String)) (st d : Findings),
      validateTriggersAux seen (st.append d) triggers
        = (validateTriggersAux seen d triggers).map st.append := by
  intro triggers
  induction triggers with
  | nil => intro seen st d; simp [validateTriggersAux, Except.map]
  | cons t rest ih =>
      intro seen st d
      simp only [validateTriggersAux, Bind.bind, Except.bind]
      rw [validateTrigger_comm seen t st d]
      cases ht : validateTrigger seen t d with
      | error e => simp [ht, Except.map]
      | ok pr =>
          obtain ⟨s2, st2⟩ := pr
          simp only [ht, Except.map]
          exact ih s2 st st2

theorem validateMacroEntry_comm (seen : List String) (mc : Elem) (st d : Findings) :
    validateMacroEntry seen mc (st.append d)
      = (validateMacroEntry seen mc d).map (fun p => (p.1, st.append p.2)) := by
  simp only [validateMacroEntry, Bind.bind, Except.bind]
  repeat' split
  all_goals (first | rfl | simp_all [Except.map])

theorem validateMacrosAux_comm :
    ∀ (macros : List Elem) (seen : List String) (st d : Findings),
      validateMacrosAux seen (st.append d) macros
        = (validateMacrosAux seen d macros).map st.append := by
  intro macros
  induction macros with
  | nil => intro seen st d; simp [validateMacrosAux, Except.map]
  | cons m rest ih =>
      intro seen st d
      simp only [validateMacrosAux, Bind.bind, Except.bind]
      rw [validateMacroEntry_comm seen m st d]
      cases hm : validateMacroEntry seen m d with
      | error e => simp [hm, Except.map]
      | ok pr =>
          obtain ⟨s2, st2⟩ := pr
          simp only [hm, Except.map]
          exact ih s2 st st2

theorem validateDiscoveryRule_comm (seen : List (Option String)) (rule : Elem)
    (st d : Findings) :
    validateDiscoveryRule seen rule (st.append d)
      = ((validateDiscoveryRule seen rule d).1,
          st.append (validateDiscoveryRule seen rule d).2) := by
  simp only [validateDiscoveryRule]
  repeat' split
  all_goals (first | rfl | simp_all)

theorem validateDiscoveryRulesAux_comm :
    ∀ (rules : List Elem) (seen : List (Option String)) (st d : Findings),
      validateDiscoveryRulesAux seen (st.append d) rules
        = st.append (validateDiscoveryRulesAux seen d rules) := by
  intro rules
  induction rules with
  | nil => intro seen st d; rfl
  | cons r rest ih =>
      intro seen st d
      simp only [validateDiscoveryRulesAux]
      rcases hRd : validateDiscoveryRule seen r d with ⟨s2, st2⟩
      rw [validateDiscoveryRule_comm seen r st d, hRd]
      exact ih s2 st st2

theorem nameStage_comm (tpl : Elem) (st d : Findings) :
    st.append (templateNameStage tpl d) = templateNameStage tpl (st.append d) := by
  unfold templateNameStage
  by_cases hc : (tpl.find "name").isNone = true <;> simp [hc]

theorem uuidStage_comm (tpl : Elem) (st d : Findings) :
    templateUuidStage tpl (st.append d) = (templateUuidStage tpl d).map st.append := by
  unfold templateUuidStage
  cases hu : tpl.find "uuid" with
  | none => simp [hu, Except.map]
  | some uuid =>
      cases hut : uuid.text with
      | none => simp [hu, hut, Except.map]
      | some ut => by_cases hv : isValidUuid ut = true <;> simp [hu, hut, hv, Except.map]

theorem groupsStage_comm (tpl : Elem) (st d : Findings) :
    st.append (templateGroupsStage tpl d) = templateGroupsStage tpl (st.append d) := by
  unfold templateGroupsStage
  cases hg : tpl.find "groups" with
  | none => simp [hg]
  | some groups =>
      by_cases hl : (groups.findall "group").length = 0 <;>
        simp [hg, hl, append_validateGroups]

theorem itemsStage_comm (tpl : Elem) (st d : Findings) :
    templateItemsStage tpl (st.append d) = (templateItemsStage tpl d).map st.append := by
  unfold templateItemsStage
  cases hi : tpl.find "items" with
  | none => simp [hi, Except.map]
  | some items =>
      simp only [hi]
      exact validateItemsAux_comm (items.findall "item") [] st d

theorem discoveryStage_comm (tpl : Elem) (st d : Findings) :
    st.append (templateDiscoveryStage tpl d) = templateDiscoveryStage tpl (st.append d) := by
  unfold templateDiscoveryStage
  cases hd2 : tpl.find "discovery_rules" with
  | none => simp [hd2]
  | some disc =>
      simp only [hd2]
      exact (validateDiscoveryRulesAux_comm (disc.findall "discovery_rule") [] st d).symm

theorem triggersStage_comm (tpl : Elem) (st d : Findings) :
    templateTriggersStage tpl (st.append d) = (templateTriggersStage tpl d).map st.append := by
  unfold templateTriggersStage
  cases ht : tpl.find "triggers" with
  | none => simp [ht, Except.map]
  | some triggers =>
      simp only [ht]
      exact validateTriggersAux_comm (triggers.findall "trigger") [] st d

theorem macrosStage_comm (tpl : Elem) (st d : Findings) :
    templateMacrosStage tpl (st.append d) = (templateMacrosStage tpl d).map st.append := by
  unfold templateMacrosStage
  cases hm : tpl.find "macros" with
  | none => simp [hm, Except.map]
  | some macros =>
      simp only [hm]
      exact validateMacrosAux_comm (macros.findall "macro") [] st d

theorem validateTemplate_comm (tpl : Elem) (st d : Findings) :
    validateTemplate tpl (st.append d) = (validateTemplate tpl d).map st.append := by
  simp only [validateTemplate]
  rw [← nameStage_comm tpl st d, uuidStage_comm tpl st (templateNameStage tpl d)]
  cases h1 : templateUuidStage tpl (templateNameStage tpl d) with
  | error e => simp [Except.map, Bind.bind, Except.bind]
  | ok m1 =>
      simp only [Except.map, Bind.bind, Except.bind]
      rw [← groupsStage_comm tpl st m1, itemsStage_comm tpl st (templateGroupsStage tpl m1)]
      cases h2 : templateItemsStage tpl (templateGroupsStage tpl m1) with
      | error e => simp [Except.map]
      | ok m2 =>
          simp only [Except.map]
          rw [← discoveryStage_comm tpl st m2,
            triggersStage_comm tpl st (templateDiscoveryStage tpl m2)]
          cases h3 : templateTriggersStage tpl (templateDiscoveryStage tpl m2) with
          | error e => simp [Except.map]
          | ok m3 =>
              simp only [Except.map]
              exact macrosStage_comm tpl st m3

theorem validateTemplateList_comm :
    ∀ (tl : List Elem) (st d : Findings),
      validateTemplateList tl (st.append d) = (validateTemplateList tl d).map st.append := by
  intro tl
  induction tl with
  | nil => intro st d; simp [validateTemplateList, Except.map]
  | cons t rest ih =>
      intro st d
      simp only [validateTemplateList, Bind.bind, Except.bind]
      rw [validateTemplate_comm t st d]
      cases h1 : validateTemplate t d with
      | error e => simp [h1, Except.map]
      | ok m =>
          simp only [h1, Except.map]
          exact ih st m

theorem validateTemplates_comm (root : Elem) (st d : Findings) :
    validateTemplates root (st.append d) = (validateTemplates root d).map st.append := by
  unfold validateTemplates
  cases ht : root.find "templates" with
  | none => simp [ht, Except.map]
  | some templates =>
      by_cases hl : (templates.findall "template").length = 0
      · simp [ht, hl, Except.map]
      · simp only [ht, hl, if_neg, ite_false]
        rw [show (st.append d).addInfo (.foundTemplates (templates.findall "template").length)
            = st.append (d.addInfo (.foundTemplates (templates.findall "template").length))
          from by simp]
        exact validateTemplateList_comm _ st _

theorem pipeline_comm (root : Elem) (st d : Findings) :
    (validateVersion root (st.append d) >>= validateTemplates root)
      = ((validateVersion root d >>= validateTemplates root)).map st.append := by
  rw [vv_comm]
  cases hv : validateVersion root d with
  | error e => simp [Except.map, Bind.bind, Except.bind]
  | ok m =>
      simp only [hv, Except.map, Bind.bind, Except.bind]
      exact validateTemplates_comm root st m

/-! Root-structure error behaviour (C8). -/

/-- C8 counterexample: a document whose root tag is wrong does not always
still yield a verdict: when its version element carries no text, the
version check raises an uncaught AttributeError and validation aborts with
no verdict. -/
theorem root_mismatch_can_abort :
    validate (Elem.mk "export" none [Elem.mk "version" none []])
      = .error .attributeError := rfl

/-- C8 amended: whenever a document with a wrong root tag does yield a
verdict, exactly one root-structure Error was recorded, the verdict is
FAIL, and the remaining checks ran exactly as they would with the correct
root tag: the findings equal those of the same document under the tag
zabbix_export except for the one extra root Error (and the swapped
info line). -/
theorem root_mismatch_one_error_and_continues (t : String) (txt : Option String)
    (ch : List Elem) (hne : t ≠ "zabbix_export") (b : Bool) (f : Findings)
    (h : validate (Elem.mk t txt ch) = .ok (b, f)) :
    f.errors.countP Finding.isRootErr = 1 ∧ b = false ∧
    ∃ b2 f2, validate (Elem.mk "zabbix_export" txt ch) = .ok (b2, f2) ∧
      f.errors = .rootNotZabbixExport t :: f2.errors ∧
      f.warnings = f2.warnings := by
  have hver : ∀ st, validateVersion (Elem.mk t txt ch) st
      = validateVersion (Elem.mk "zabbix_export" txt ch) st := fun st => rfl
  have htpls : ∀ st, validateTemplates (Elem.mk t txt ch) st
      = validateTemplates (Elem.mk "zabbix_export" txt ch) st := fun st => rfl
  have hbadroot : validateRootStructure (Elem.mk t txt ch) Findings.empty
      = Findings.empty.addError (.rootNotZabbixExport t) := by
    simp [validateRootStructure, Elem.tag, hne]
  simp only [validate] at h
  rw [hbadroot] at h
  simp only [hver, htpls] at h
  have h1 : validateVersion (Elem.mk "zabbix_export" txt ch)
        (Findings.empty.addError (.rootNotZabbixExport t))
      = (validateVersion (Elem.mk "zabbix_export" txt ch) Findings.empty).map
          (Findings.empty.addError (.rootNotZabbixExport t)).append := by
    simpa using vv_comm (Elem.mk "zabbix_export" txt ch)
      (Findings.empty.addError (.rootNotZabbixExport t)) Findings.empty
  rw [h1] at h
  cases hv : validateVersion (Elem.mk "zabbix_export" txt ch) Findings.empty with
  | error e => simp [hv, Except.map, Bind.bind, Except.bind] at h
  | ok m =>
      simp only [hv, Except.map, Bind.bind, Except.bind] at h
      have h2 : validateTemplates (Elem.mk "zabbix_export" txt ch)
            ((Findings.empty.addError (.rootNotZabbixExport t)).append m)
          = (validateTemplates (Elem.mk "zabbix_export" txt ch) m).map
              (Findings.empty.addError (.rootNotZabbixExport t)).append :=
        validateTemplates_comm _ _ m
      rw [h2] at h
      cases ht2 : validateTemplates (Elem.mk "zabbix_export" txt ch) m with
      | error e => simp [ht2, Except.map] at h
      | ok d0 =>
          simp only [ht2, Except.map] at h
          simp only [Except.ok.injEq, Prod.mk.injEq] at h
          obtain ⟨hb, hf⟩ := h
          subst hf
          subst hb
          have hm0 : m.errors.countP Finding.isRootErr = 0 := by
            have hpres := countP_root_validateVersion
              (Elem.mk "zabbix_export" txt ch) Findings.empty m hv
            simpa [Findings.empty] using hpres
          have hd0 : d0.errors.countP Finding.isRootErr = 0 := by
            rw [countP_root_validateTemplates (Elem.mk "zabbix_export" txt ch) m d0 ht2]
            exact hm0
          have hgood : validate (Elem.mk "zabbix_export" txt ch)
              = .ok ((((Findings.empty.addInfo .rootOk).append d0).errors.length == 0),
                  (Findings.empty.addInfo .rootOk).append d0) := by
            simp only [validate]
            have hgr : validateRootStructure (Elem.mk "zabbix_export" txt ch) Findings.empty
                = Findings.empty.addInfo .rootOk := by
              simp [validateRootStructure, Elem.tag]
            rw [hgr]
            have h1g : validateVersion (Elem.mk "zabbix_export" txt ch)
                  (Findings.empty.addInfo .rootOk)
                = (validateVersion (Elem.mk "zabbix_export" txt ch) Findings.empty).map
                    (Findings.empty.addInfo .rootOk).append := by
              simpa using vv_comm (Elem.mk "zabbix_export" txt ch)
                (Findings.empty.addInfo .rootOk) Findings.empty
            rw [h1g, hv]
            simp only [Except.map, Bind.bind, Except.bind]
            have h2g : validateTemplates (Elem.mk "zabbix_export" txt ch)
                  ((Findings.empty.addInfo .rootOk).append m)
                = (validateTemplates (Elem.mk "zabbix_export" txt ch) m).map
                    (Findings.empty.addInfo .rootOk).append :=
              validateTemplates_comm _ _ m
            rw [h2g, ht2]
            simp [Except.map]
          refine ⟨?_, ?_, _, _, hgood, ?_, ?_⟩
          · simp [Findings.empty, List.countP_cons, Finding.isRootErr, hd0]
          · simp [Findings.empty]
          · simp [Findings.empty]
          · simp [Findings.empty]

/-- Witness for C8 at a concrete document with the wrong root tag. -/
theorem root_mismatch_witness :
    ("export" ≠ "zabbix_export" ∧
      validate (Elem.mk "export" none []) = .ok (false,
        ⟨[.rootNotZabbixExport "export", .missingVersion, .missingTemplates], [], []⟩)) ∧
    ((Findings.mk [.rootNotZabbixExport "export", .missingVersion, .missingTemplates]
        [] []).errors.countP Finding.isRootErr = 1 ∧ false = false ∧
      ∃ b2 f2, validate (Elem.mk "zabbix_export" none []) = .ok (b2, f2) ∧
        (Findings.mk [.rootNotZabbixExport "export", .missingVersion, .missingTemplates]
          [] []).errors = .rootNotZabbixExport "export" :: f2.errors ∧
        (Findings.mk [.rootNotZabbixExport "export", .missingVersion, .missingTemplates]
          [] []).warnings = f2.warnings) :=
  ⟨⟨by decide, rfl⟩,
    root_mismatch_one_error_and_continues "export" none [] (by decide) false
      ⟨[.rootNotZabbixExport "export", .missingVersion, .missingTemplates], [], []⟩ rfl⟩
